import Mathlib

/-!
Verification development for the KarmaChain security hardening core
(`src/utils/security_hardening.py`): nonce issuance and validation, TTL
checks, replay-fingerprint detection, HMAC message signing, the
hash-chained audit log, and the bucket store built on top of them.

Modelling conventions.

JSON values are the mutual inductive family `JVal`/`JArr`/`JObj`; Python
dicts become `JObj` association structures preserving insertion order, as
Python dicts do.  The canonical JSON serialization used by the source
(`json.dumps(-, sort_keys=True, separators=(',', ':'))`) is modelled by
`canonicalJson`, which sorts the object's keys with a stable insertion
sort; since `json.dumps` is injective on JSON data, a cryptographic digest
of the canonical serialization is modelled symbolically by the
constructors `JVal.jhash` (SHA-256 hex digest of the canonical form of its
argument) and `JVal.jhmac` (HMAC-SHA256 hex digest, keyed).  This is the
ideal-hash reading under which the source's own integrity arguments are
stated: distinct canonical forms have distinct digests.  The truncation of
hex digests performed by the source purely for display or shortening
(`[:32]` on nonces, `[:8] + '...'` in one log detail) is not modelled;
no claim depends on it.

The ambient clock (`time.time()` and `datetime.now(timezone.utc)`, which
the source uses interchangeably at second granularity) is one explicit
parameter `now : Int` of unix seconds, and RFC3339 timestamps are modelled
by the representation `isoformat`/`fromisoformat` below: an aware UTC
timestamp renders as `"<seconds>+00:00"`, other strings fail to parse.
The randomness of `secrets.token_bytes(16).hex()` is an explicit `rand`
parameter.  Fallible lookups return `Option`.
-/

namespace KarmaChain

mutual
/-- JSON values as manipulated by the Python source; `jhash v` stands for
the SHA-256 hex-digest string of the canonical JSON serialization of `v`,
and `jhmac key v` for the HMAC-SHA256 hex-digest string over the canonical
JSON serialization of `v` with key `key`. -/
inductive JVal where
  | jstr : String → JVal
  | jint : Int → JVal
  | jbool : Bool → JVal
  | jnull : JVal
  | jarr : JArr → JVal
  | jobj : JObj → JVal
  | jhash : JVal → JVal
  | jhmac : String → JVal → JVal
deriving DecidableEq, Repr
/-- JSON arrays. -/
inductive JArr where
  | nil : JArr
  | cons : JVal → JArr → JArr
deriving DecidableEq, Repr
/-- JSON objects (Python dicts): ordered association structures. -/
inductive JObj where
  | nil : JObj
  | cons : String → JVal → JObj → JObj
deriving DecidableEq, Repr
end

/-- Python truthiness of a JSON value (`bool(v)`). -/
def JVal.falsy : JVal → Bool
  | .jstr s => decide (s = "")
  | .jint n => decide (n = 0)
  | .jbool b => !b
  | .jnull => true
  | .jarr a => match a with | .nil => true | _ => false
  | .jobj o => match o with | .nil => true | _ => false
  | .jhash _ => false
  | .jhmac _ _ => false

/-- Dict lookup, `d.get(k)` / `d[k]`: value of the first binding of `k`. -/
def JObj.get : JObj → String → Option JVal
  | .nil, _ => none
  | .cons k2 v t, k => if k2 = k then some v else t.get k

/-- Dict lookup with default, `d.get(k, dflt)`. -/
def JObj.getD (d : JObj) (k : String) (dflt : JVal) : JVal :=
  (d.get k).getD dflt

/-- Membership test, `k in d`. -/
def JObj.hasKey (d : JObj) (k : String) : Bool :=
  (d.get k).isSome

/-- Dict update, `d[k] = v`: replace the binding of `k` in place if
present, else append the new binding at the end (Python dict semantics). -/
def JObj.set : JObj → String → JVal → JObj
  | .nil, k, v => .cons k v .nil
  | .cons k2 v2 t, k, v => if k2 = k then .cons k2 v t else .cons k2 v2 (t.set k v)

/-- Dict removal, `d.pop(k, None)` (discarding the popped value). -/
def JObj.erase : JObj → String → JObj
  | .nil, _ => .nil
  | .cons k2 v t, k => if k2 = k then t.erase k else .cons k2 v (t.erase k)

/-- Build a `JObj` from a list of bindings (a Python dict literal). -/
def JObj.ofList : List (String × JVal) → JObj
  | [] => .nil
  | p :: t => .cons p.1 p.2 (JObj.ofList t)

/-- Lexicographic order on character lists (by code point). -/
def charListLe : List Char → List Char → Bool
  | [], _ => true
  | _ :: _, [] => false
  | a :: as, b :: bs => if a = b then charListLe as bs else decide (a < b)

/-- Executable lexicographic string order by code point: the key order of
`sort_keys=True`. -/
def strLe (a b : String) : Bool :=
  charListLe a.data b.data

/-- Insert one binding into a key-sorted object, before any binding with
an equal or larger key (stable with respect to equal keys). -/
def JObj.insertPair (k : String) (v : JVal) : JObj → JObj
  | .nil => .cons k v .nil
  | .cons k2 v2 t =>
      if strLe k k2 then .cons k v (.cons k2 v2 t) else .cons k2 v2 (insertPair k v t)

/-- Stable insertion sort of an object's bindings by key: the key order
produced by `json.dumps(-, sort_keys=True)`. -/
def JObj.sortKeys : JObj → JObj
  | .nil => .nil
  | .cons k v t => JObj.insertPair k v t.sortKeys

/-- Canonical JSON form of a dict: `json.dumps(d, sort_keys=True,
separators=(',', ':'))`, represented as the key-sorted object itself
(`json.dumps` is injective on JSON data, so the sorted object carries
exactly the information of the serialized string). -/
def canonicalJson (d : JObj) : JVal :=
  .jobj d.sortKeys

/-- Build a JSON array of strings (for logged `errors` lists). -/
def JArr.ofStrings : List String → JArr
  | [] => .nil
  | s :: t => .cons (.jstr s) (JArr.ofStrings t)

/-- Association-list lookup (first binding wins), for the nonce store,
replay cache and bucket store dicts whose keys are not dict fields. -/
def alistGet {α β : Type} [DecidableEq α] : List (α × β) → α → Option β
  | [], _ => none
  | p :: t, k => if p.1 = k then some p.2 else alistGet t k

/-- Association-list update: replace the first binding in place if the key
is present, else append (Python dict assignment). -/
def alistSet {α β : Type} [DecidableEq α] : List (α × β) → α → β → List (α × β)
  | [], k, v => [(k, v)]
  | p :: t, k, v => if p.1 = k then (p.1, v) :: t else p :: alistSet t k v

/-- Association-list removal, `del d[k]`. -/
def alistErase {α β : Type} [DecidableEq α] : List (α × β) → α → List (α × β)
  | [], _ => []
  | p :: t, k => if p.1 = k then alistErase t k else p :: alistErase t k

/-- Character-list front matching, for the executable string suffix test. -/
def matchesFront : List Char → List Char → Bool
  | [], _ => true
  | _ :: _, [] => false
  | a :: as, b :: bs => decide (a = b) && matchesFront as bs

/-- Executable `str.endswith(suffix)` over the character data. -/
def strEndsWith (s suffix : String) : Bool :=
  matchesFront suffix.data.reverse s.data.reverse

/-- Executable `s[:-n]` over the character data. -/
def strDropRight (s : String) (n : Nat) : String :=
  ⟨s.data.take (s.data.length - n)⟩

/-- Accumulate decimal digits; any non-digit character fails. -/
def digitsToNat : Nat → List Char → Option Nat
  | acc, [] => some acc
  | acc, c :: cs => if c.isDigit then digitsToNat (acc * 10 + (c.toNat - 48)) cs else none

/-- Executable decimal integer parse (an optional leading minus sign
followed by decimal digits). -/
def parseInt (s : String) : Option Int :=
  match s.data with
  | [] => none
  | '-' :: ds => if ds = [] then none else (digitsToNat 0 ds).map (fun n => -(n : Int))
  | ds => (digitsToNat 0 ds).map (fun n => (n : Int))

/-- Rendering of an aware UTC timestamp:
`datetime.fromtimestamp(t, timezone.utc).isoformat()` restricted to the
abstract representation used throughout this development. -/
def isoformat (t : Int) : String :=
  toString t ++ "+00:00"

/-- Modelled from the library: `datetime.fromisoformat`, restricted to the
representation of aware UTC timestamps used in this development
(`"<seconds>+00:00"`); every other string is a parse failure. -/
def fromisoformat (s : String) : Option Int :=
  if strEndsWith s "+00:00" then parseInt (strDropRight s 6) else none

/-- Stored nonce record: `{'timestamp': ..., 'created_at': ...}`. -/
structure NonceInfo where
  timestamp : Int
  created_at : String
deriving DecidableEq, Repr

/-- State of `SecurityManager` (`security_hardening.py` lines 24-52). -/
structure SecurityManager where
  secret_key : String
  nonce_store : List (JVal × NonceInfo)
  replay_cache : List (JVal × (Int × JVal))
  audit_log : List JObj
  last_audit_hash : Option JVal
  nonce_ttl : Int
  replay_window : Int
  audit_retention : Nat
deriving DecidableEq, Repr

/-- Genesis audit entry built by `_initialize_audit_chain` (lines 42-52):
hardcoded event id and sentinel entry hash. -/
def genesis_entry (now : Int) : JObj :=
  JObj.ofList
    [ ("event_id", .jstr "genesis_0000000000000000")
    , ("timestamp", .jstr (isoformat now))
    , ("event_type", .jstr "chain_initialization")
    , ("details", .jobj (JObj.ofList
        [ ("system", .jstr "karmachain_security")
        , ("version", .jstr "2.0") ]))
    , ("entry_hash", .jstr "genesis_hash_0000000000000000") ]

/-- `SecurityManager.__init__` (lines 27-40) followed by
`_initialize_audit_chain` (lines 42-52). -/
def SecurityManager.mk0 (secret : String) (now : Int) : SecurityManager :=
  { secret_key := secret
  , nonce_store := []
  , replay_cache := []
  , audit_log := [genesis_entry now]
  , last_audit_hash := some (.jstr "genesis_hash_0000000000000000")
  , nonce_ttl := 300
  , replay_window := 3600
  , audit_retention := 1000 }

/-- Nonce built by `generate_secure_nonce` (lines 56-62): the hash of
`"{timestamp}:{hex}"`.  The source truncates the hex digest to 32
characters; the truncation is not modelled. -/
def nonce_value (now : Int) (rand : String) : JVal :=
  .jhash (.jstr (toString now ++ ":" ++ rand))

/-- `generate_secure_nonce` (lines 54-70): record the freshly built nonce
with its issuance time and return it. -/
def generate_secure_nonce (sm : SecurityManager) (now : Int) (rand : String) :
    JVal × SecurityManager :=
  (nonce_value now rand,
   { sm with nonce_store :=
       alistSet sm.nonce_store (nonce_value now rand) ⟨now, isoformat now⟩ })

/-- `validate_nonce` (lines 72-87): reject falsy or unknown nonces; evict
and reject expired ones; otherwise accept without consuming. -/
def validate_nonce (sm : SecurityManager) (now : Int) (nonce : JVal) :
    Bool × SecurityManager :=
  if nonce.falsy then (false, sm)
  else
    match alistGet sm.nonce_store nonce with
    | none => (false, sm)
    | some info =>
        if sm.nonce_ttl < now - info.timestamp then
          (false, { sm with nonce_store := alistErase sm.nonce_store nonce })
        else (true, sm)

/-- `is_valid_ttl` (lines 89-107): parse the timestamp (a trailing literal
`Z` is rewritten to the `+00:00` offset first), and accept iff
`0 <= now - parsed <= ttl_seconds`; parse failure yields `false`. -/
def is_valid_ttl (now : Int) (timestamp : String) (ttl_seconds : Int) : Bool :=
  let parsed :=
    if strEndsWith timestamp "Z" then fromisoformat (strDropRight timestamp 1 ++ "+00:00")
    else fromisoformat timestamp
  match parsed with
  | none => false
  | some t => decide (0 ≤ now - t) && decide (now - t ≤ ttl_seconds)

/-- Replay fingerprint (lines 111-123): SHA-256 of the canonical JSON of
the message with the volatile fields `timestamp`, `nonce`, `signature`
removed. -/
def replay_fingerprint (message : JObj) : JVal :=
  .jhash (canonicalJson (((message.erase "timestamp").erase "nonce").erase "signature"))

/-- `detect_replay_attack` (lines 109-155): evict cache entries older than
the replay window, then report a replay on any cache hit (every branch of
the source's hit case returns `True`); on a miss, cache
`(now, message.get('signal_id', 'unknown'))` under the fingerprint and
report no replay. -/
def detect_replay_attack (sm : SecurityManager) (now : Int) (message : JObj) :
    Bool × SecurityManager :=
  let fp := replay_fingerprint message
  let cache := sm.replay_cache.filter (fun e => !decide (sm.replay_window < now - e.2.1))
  match alistGet cache fp with
  | some _ => (true, { sm with replay_cache := cache })
  | none =>
      (false,
       { sm with replay_cache :=
           alistSet cache fp (now, message.getD "signal_id" (.jstr "unknown")) })

/-- `sign_message` (lines 157-169): HMAC-SHA256 over the canonical JSON of
the entire given mapping. -/
def sign_message (key : String) (message : JObj) : JVal :=
  .jhmac key (canonicalJson message)

/-- `verify_signature` (lines 171-174): recompute and compare
(`hmac.compare_digest` is equality of digests). -/
def verify_signature (key : String) (message : JObj) (signature : JVal) : Bool :=
  decide (sign_message key message = signature)

/-- `log_security_event` (lines 252-282): build the entry, link it to the
previous hash when one is recorded, hash the entry without its
`entry_hash` field, append, and trim the log to the retention cap.  The
source's event id is `"sec_"` followed by a local-clock datetime string;
it is modelled as `"sec_"` followed by the clock value. -/
def log_security_event (sm : SecurityManager) (now : Int) (event_type : String)
    (details : JObj) : String × SecurityManager :=
  let eid := "sec_" ++ toString now
  let e0 : JObj := JObj.ofList
    [ ("event_id", .jstr eid)
    , ("timestamp", .jstr (isoformat now))
    , ("event_type", .jstr event_type)
    , ("details", .jobj details) ]
  let e1 :=
    match sm.last_audit_hash with
    | some h => if h.falsy then e0 else e0.set "previous_hash" h
    | none => e0
  let ch : JVal := .jhash (canonicalJson e1)
  let e2 := e1.set "entry_hash" ch
  let log := sm.audit_log ++ [e2]
  let log2 := if sm.audit_retention < log.length then log.drop (log.length - sm.audit_retention) else log
  (eid, { sm with last_audit_hash := some ch, audit_log := log2 })

/-- One iteration of the `verify_audit_chain` loop (lines 294-314): check
that the current entry's `previous_hash` equals the hash of the whole
previous entry (including that entry's own `entry_hash` field), and that
the current entry's truthy `entry_hash` equals the hash of the entry
without it. -/
def verify_link (previous_entry current_entry : JObj) : Bool :=
  let expected : JVal := .jhash (canonicalJson previous_entry)
  decide (current_entry.get "previous_hash" = some expected) &&
  (match current_entry.get "entry_hash" with
   | some a =>
       if a.falsy then true
       else decide (a = JVal.jhash (canonicalJson (current_entry.erase "entry_hash")))
   | none => true)

/-- `verify_audit_chain` (lines 288-316). -/
def verify_audit_chain (sm : SecurityManager) : Bool :=
  if sm.audit_log.length ≤ 1 then true
  else (sm.audit_log.zip sm.audit_log.tail).all (fun p => verify_link p.1 p.2)

/-- `get_audit_trail` (lines 284-286). -/
def get_audit_trail (sm : SecurityManager) (limit : Nat) : List JObj :=
  if limit < sm.audit_log.length then sm.audit_log.drop (sm.audit_log.length - limit)
  else sm.audit_log

/-- `create_secure_karma_signal` (lines 176-204): copy the payload, attach
a fresh nonce, attach a timestamp only when none is present, attach the
TTL, the security version tag, and the signature computed over everything
attached so far, then log the creation. -/
def create_secure_karma_signal (sm : SecurityManager) (now : Int) (rand : String)
    (signal_data : JObj) (ttl_seconds : Int) : JObj × SecurityManager :=
  let p := generate_secure_nonce sm now rand
  let s1 := signal_data.set "nonce" p.1
  let s2 := if s1.hasKey "timestamp" then s1 else s1.set "timestamp" (.jstr (isoformat now))
  let s3 := s2.set "ttl" (.jint ttl_seconds)
  let s4 := s3.set "security_version" (.jstr "2.0")
  let s5 := s4.set "signature" (sign_message p.2.secret_key s4)
  let q := log_security_event p.2 now "signal_created" (JObj.ofList
    [ ("signal_id", s5.getD "signal_id" .jnull)
    , ("subject_id", s5.getD "subject_id" .jnull)
    , ("nonce", p.1) ])
  (s5, q.2)

/-- Field-presence errors of `validate_secure_karma_signal`
(lines 210-214), in the source's field order. -/
def missingFieldErrors (sig : JObj) : List String :=
  (["nonce", "timestamp", "ttl", "signature", "security_version"].filter
      (fun f => !sig.hasKey f)).map
    (fun f => "Missing required field: " ++ f)

/-- TTL stage of `validate_secure_karma_signal` (line 224):
`is_valid_ttl(sig['timestamp'], sig['ttl'])`.  A non-integer `ttl` raises
`TypeError` inside `is_valid_ttl`, which is caught and yields `False`; a
non-string `timestamp` is likewise modelled as `false`. -/
def check_message_ttl (now : Int) (sig : JObj) : Bool :=
  match sig.get "timestamp", sig.get "ttl" with
  | some (.jstr ts), some (.jint n) => is_valid_ttl now ts n
  | _, _ => false

/-- Signature stage of `validate_secure_karma_signal` (lines 231-238):
pop the signature and re-verify over the rest; a missing or falsy
signature value yields the missing-signature error. -/
def signature_errors (key : String) (sig : JObj) : List String :=
  match sig.get "signature" with
  | some sv =>
      if sv.falsy then ["Missing signature"]
      else if verify_signature key (sig.erase "signature") sv then [] else ["Invalid signature"]
  | none => ["Missing signature"]

/-- Error accumulation of `validate_secure_karma_signal` (lines 219-239):
the nonce, TTL, replay and signature checks run in this order with no
short-circuiting, each contributing its error string on failure.  The
replay stage runs in the state left by the nonce stage (`validate_nonce`
may first evict an expired nonce). -/
def secure_errors (sm : SecurityManager) (now : Int) (sig : JObj) : List String :=
  (if (validate_nonce sm now (sig.getD "nonce" .jnull)).1 then []
   else ["Invalid or expired nonce"]) ++
  (if check_message_ttl now sig then [] else ["Message expired (TTL violation)"]) ++
  (if (detect_replay_attack (validate_nonce sm now (sig.getD "nonce" .jnull)).2 now sig).1
   then ["Replay attack detected"] else []) ++
  signature_errors sm.secret_key sig

/-- Details dict logged by `validate_secure_karma_signal` (lines 243-248). -/
def validation_log_details (sig : JObj) (errors : List String) : JObj :=
  JObj.ofList
    [ ("signal_id", sig.getD "signal_id" .jnull)
    , ("valid", .jbool errors.isEmpty)
    , ("error_count", .jint errors.length)
    , ("errors", .jarr (JArr.ofStrings (errors.take 3))) ]

/-- `validate_secure_karma_signal` (lines 206-250): return immediately on
missing security fields; otherwise run the nonce, TTL, replay and
signature stages, accumulating every error, log the outcome, and report
`valid = (errors == [])`. -/
def validate_secure_karma_signal (sm : SecurityManager) (now : Int) (sig : JObj) :
    (Bool × List String) × SecurityManager :=
  let missing := missingFieldErrors sig
  if missing = [] then
    let errors := secure_errors sm now sig
    let sm2 := (detect_replay_attack (validate_nonce sm now (sig.getD "nonce" .jnull)).2 now sig).2
    let p5 := log_security_event sm2 now "signal_validated" (validation_log_details sig errors)
    ((errors.isEmpty, errors), p5.2)
  else ((false, missing), sm)

/-- Result dict of `send_to_bucket` (lines 350-354 and 368-373). -/
structure SendResult where
  success : Bool
  bucket_id : Option String
  errors : List String
  signal_id : JVal
deriving DecidableEq, Repr

/-- State of `BucketCommunicator` (lines 328-334); the Python object holds
a reference to the shared `SecurityManager`, modelled as a field threaded
through each operation. -/
structure BucketCommunicator where
  sm : SecurityManager
  bucket_store : List (String × JObj)
  bucket_counter : Nat
deriving DecidableEq, Repr

/-- `send_to_bucket` (lines 336-373): secure the payload, self-validate
the secured signal, and on success store it under a fresh auto-incremented
handle, logging either way. -/
def send_to_bucket (bc : BucketCommunicator) (now : Int) (rand : String)
    (signal_data : JObj) : SendResult × BucketCommunicator :=
  let p := create_secure_karma_signal bc.sm now rand signal_data 300
  let q := validate_secure_karma_signal p.2 now p.1
  if q.1.1 then
    let counter := bc.bucket_counter + 1
    let bid := "bucket_" ++ toString counter
    let r := log_security_event q.2 now "bucket_send_success" (JObj.ofList
      [ ("bucket_id", .jstr bid)
      , ("signal_id", signal_data.getD "signal_id" .jnull)
      , ("subject_id", signal_data.getD "subject_id" .jnull) ])
    ({ success := true, bucket_id := some bid, errors := [],
       signal_id := signal_data.getD "signal_id" .jnull },
     { bc with
       sm := r.2
       bucket_store := alistSet bc.bucket_store bid p.1
       bucket_counter := counter })
  else
    let r := log_security_event q.2 now "bucket_send_failed" (JObj.ofList
      [ ("signal_id", signal_data.getD "signal_id" .jnull)
      , ("errors", .jarr (JArr.ofStrings q.1.2)) ])
    ({ success := false, bucket_id := none, errors := q.1.2,
       signal_id := signal_data.getD "signal_id" .jnull },
     { bc with sm := r.2 })

/-- `receive_from_bucket` (lines 375-404): unknown handles and handles
whose stored message fails re-validation yield `None` (the store is not
modified); a valid stored message is returned. -/
def receive_from_bucket (bc : BucketCommunicator) (now : Int) (bucket_id : String) :
    Option JObj × BucketCommunicator :=
  match alistGet bc.bucket_store bucket_id with
  | none =>
      let r := log_security_event bc.sm now "bucket_not_found"
        (JObj.ofList [("bucket_id", .jstr bucket_id)])
      (none, { bc with sm := r.2 })
  | some signal_data =>
      let q := validate_secure_karma_signal bc.sm now signal_data
      if q.1.1 then
        let r := log_security_event q.2 now "bucket_receive_success" (JObj.ofList
          [ ("bucket_id", .jstr bucket_id)
          , ("signal_id", signal_data.getD "signal_id" .jnull)
          , ("subject_id", signal_data.getD "subject_id" .jnull) ])
        (some signal_data, { bc with sm := r.2 })
      else
        let r := log_security_event q.2 now "bucket_receive_violation" (JObj.ofList
          [ ("bucket_id", .jstr bucket_id)
          , ("signal_id", signal_data.getD "signal_id" .jnull)
          , ("violations", .jarr (JArr.ofStrings q.1.2)) ])
        (none, { bc with sm := r.2 })

/-- Spec-side reading of the timestamp parse step of `is_valid_ttl`: parse
as RFC3339, accepting a trailing literal `Z` as UTC by rewriting it to the
`+00:00` offset. -/
def parses_as_rfc3339 (s : String) : Option Int :=
  if strEndsWith s "Z" then fromisoformat (strDropRight s 1 ++ "+00:00") else fromisoformat s

/-- Names of the five fields attached by `create_secure_karma_signal`. -/
def security_field_names : List String :=
  ["nonce", "timestamp", "ttl", "security_version", "signature"]

/-! Concrete fixtures used to evaluate the operations on explicit inputs. -/

/-- Security manager freshly constructed with secret `"k"` at time 0. -/
def base_sm : SecurityManager := SecurityManager.mk0 "k" 0

/-- Bucket communicator over `base_sm` with an empty store. -/
def base_bc : BucketCommunicator :=
  { sm := base_sm, bucket_store := [], bucket_counter := 0 }

/-- Payload with a signal id and a subject id. -/
def roundtrip_msg : JObj :=
  JObj.ofList [("signal_id", .jstr "s1"), ("subject_id", .jstr "u1")]

/-- Payload with just a signal id. -/
def replay_msg : JObj := JObj.ofList [("signal_id", .jstr "s1")]

/-- A nonce issued by `base_sm` at time 0 with entropy `"r"`, with the
resulting manager state. -/
def issued : JVal × SecurityManager := generate_secure_nonce base_sm 0 "r"

/-- One-field message, for signature checks. -/
def tamper_msg_a : JObj := JObj.ofList [("a", .jint 1)]

/-- The same message with the field's value changed. -/
def tamper_msg_b : JObj := JObj.ofList [("a", .jint 2)]

/-- Bucket communicator whose store holds a message that fails
re-validation (an empty dict is missing every security field). -/
def stored_invalid_bc : BucketCommunicator :=
  { sm := base_sm, bucket_store := [("bucket_1", JObj.nil)], bucket_counter := 1 }

/-- Payload that already carries a `nonce` field of its own. -/
def nonce_payload : JObj := JObj.ofList [("nonce", .jstr "x")]

/-- Payload with one non-security field. -/
def plain_payload : JObj := JObj.ofList [("foo", .jstr "bar")]

/-- A message carrying all five security fields but an unknown nonce, an
unparseable timestamp and a forged signature. -/
def bad_sig : JObj :=
  JObj.ofList
    [ ("nonce", .jstr "bad")
    , ("timestamp", .jstr "junk")
    , ("ttl", .jint 300)
    , ("signature", .jstr "forged")
    , ("security_version", .jstr "2.0") ]

/-- A freshly secured signal over `base_sm`, with the manager state after
securing. -/
def fresh_secured : JObj × SecurityManager :=
  create_secure_karma_signal base_sm 0 "r" replay_msg 300

/-! Basic lemmas about the association structures. -/

/-- Structural induction on objects alone (the mutual family's generated
eliminator has multiple motives, which the `induction` tactic rejects). -/
theorem JObj.inductionOn (P : JObj → Prop) (hnil : P .nil)
    (hcons : ∀ k v t, P t → P (.cons k v t)) : ∀ d, P d
  | .nil => hnil
  | .cons k v t => hcons k v t (JObj.inductionOn P hnil hcons t)

theorem alistGet_set_self {α β : Type} [DecidableEq α] (l : List (α × β)) (k : α) (v : β) :
    alistGet (alistSet l k v) k = some v := by
  induction l with
  | nil => simp [alistSet, alistGet]
  | cons p t ih =>
      by_cases h : p.1 = k
      · simp [alistSet, h, alistGet]
      · simp [alistSet, h, alistGet, ih]

theorem alistGet_erase_self {α β : Type} [DecidableEq α] (l : List (α × β)) (k : α) :
    alistGet (alistErase l k) k = none := by
  induction l with
  | nil => simp [alistErase, alistGet]
  | cons p t ih =>
      by_cases h : p.1 = k
      · simp [alistErase, h, ih]
      · simp [alistErase, h, alistGet, ih]

theorem alistGet_filter_eq_some {α β : Type} [DecidableEq α] (l : List (α × β))
    (p : β → Bool) (k : α) (v : β) (hget : alistGet l k = some v) (hp : p v = true) :
    alistGet (l.filter fun e => p e.2) k = some v := by
  induction l with
  | nil => simp [alistGet] at hget
  | cons q t ih =>
      by_cases h : q.1 = k
      · simp [alistGet, h] at hget
        subst hget
        simp [List.filter, hp, alistGet, h]
      · simp [alistGet, h] at hget
        by_cases hq : p q.2
        · simp [List.filter, hq, alistGet, h, ih hget]
        · simp [List.filter, hq, ih hget]

theorem alistGet_filter_eq_none {α β : Type} [DecidableEq α] (l : List (α × β))
    (p : β → Bool) (k : α) (hget : alistGet l k = none) :
    alistGet (l.filter fun e => p e.2) k = none := by
  induction l with
  | nil => simp [alistGet]
  | cons q t ih =>
      by_cases h : q.1 = k
      · simp [alistGet, h] at hget
      · simp [alistGet, h] at hget
        by_cases hq : p q.2
        · simp [List.filter, hq, alistGet, h, ih hget]
        · simp [List.filter, hq, ih hget]

theorem JObj.get_set_self (d : JObj) (k : String) (v : JVal) :
    (d.set k v).get k = some v := by
  induction d using JObj.inductionOn with
  | hnil => simp [JObj.set, JObj.get]
  | hcons k2 v2 t ih =>
      by_cases h : k2 = k
      · simp [JObj.set, h, JObj.get]
      · simp [JObj.set, h, JObj.get, ih]

theorem JObj.get_set_ne (d : JObj) (k : String) (v : JVal) (k2 : String) (h : k2 ≠ k) :
    (d.set k v).get k2 = d.get k2 := by
  have hk : ¬ k = k2 := fun he => h he.symm
  induction d using JObj.inductionOn with
  | hnil => simp [JObj.set, JObj.get, hk]
  | hcons k3 v3 t ih =>
      by_cases h3 : k3 = k
      · subst h3
        simp [JObj.set, JObj.get, hk]
      · simp [JObj.set, h3, JObj.get, ih]

theorem JObj.get_erase_self (d : JObj) (k : String) :
    (d.erase k).get k = none := by
  induction d using JObj.inductionOn with
  | hnil => simp [JObj.erase, JObj.get]
  | hcons k2 v2 t ih =>
      by_cases h : k2 = k
      · simp [JObj.erase, h, ih]
      · simp [JObj.erase, h, JObj.get, ih]

theorem JObj.get_erase_ne (d : JObj) (k : String) (k2 : String) (h : k2 ≠ k) :
    (d.erase k).get k2 = d.get k2 := by
  have hk : ¬ k = k2 := fun he => h he.symm
  induction d using JObj.inductionOn with
  | hnil => simp [JObj.erase]
  | hcons k3 v3 t ih =>
      by_cases h3 : k3 = k
      · subst h3
        simp [JObj.erase, JObj.get, hk, ih]
      · simp [JObj.erase, h3, JObj.get, ih]

theorem strLe_refl (s : String) : strLe s s = true := by
  unfold strLe
  induction s.data with
  | nil => rfl
  | cons c cs ih => simp [charListLe, ih]

theorem JObj.get_insertPair (k : String) (v : JVal) (d : JObj) (k2 : String) :
    (JObj.insertPair k v d).get k2 = if k = k2 then some v else d.get k2 := by
  induction d using JObj.inductionOn with
  | hnil => simp [JObj.insertPair, JObj.get]
  | hcons k3 v3 t ih =>
      by_cases hle : strLe k k3 = true
      · simp [JObj.insertPair, hle, JObj.get]
      · have hne : k ≠ k3 := fun he => hle (he ▸ strLe_refl k)
        by_cases h32 : k3 = k2
        · subst h32
          simp [JObj.insertPair, hle, JObj.get, fun he : k = k3 => hne he]
        · simp [JObj.insertPair, hle, JObj.get, h32, ih]

theorem JObj.get_sortKeys (d : JObj) (k : String) :
    d.sortKeys.get k = d.get k := by
  induction d using JObj.inductionOn with
  | hnil => rfl
  | hcons k2 v2 t ih => simp [JObj.sortKeys, JObj.get_insertPair, JObj.get, ih]

theorem JObj.hasKey_set_ne (d : JObj) (k : String) (v : JVal) (k2 : String) (h : k2 ≠ k) :
    (d.set k v).hasKey k2 = d.hasKey k2 := by
  simp [JObj.hasKey, JObj.get_set_ne d k v k2 h]

/-! Characterizations of the security operations. -/

theorem validate_nonce_true_iff (sm : SecurityManager) (now : Int) (n : JVal) :
    (validate_nonce sm now n).1 = true ↔
      n.falsy = false ∧ ∃ info, alistGet sm.nonce_store n = some info ∧
        now - info.timestamp ≤ sm.nonce_ttl := by
  unfold validate_nonce
  cases hf : n.falsy
  · rcases hg : alistGet sm.nonce_store n with _ | info
    · simp [hg]
    · by_cases hexp : sm.nonce_ttl < now - info.timestamp
      · simp [hg, hexp]
        omega
      · simp [hg, hexp]
        omega
  · simp

theorem validate_nonce_eq_of_true (sm : SecurityManager) (now : Int) (n : JVal)
    (h : (validate_nonce sm now n).1 = true) :
    validate_nonce sm now n = (true, sm) := by
  unfold validate_nonce at h ⊢
  cases hf : n.falsy
  · rcases hg : alistGet sm.nonce_store n with _ | info
    · simp [hf, hg] at h
    · by_cases hexp : sm.nonce_ttl < now - info.timestamp
      · simp [hf, hg, hexp] at h
      · simp [hf, hg, hexp]
  · simp [hf] at h

theorem validate_nonce_snd_fields (sm : SecurityManager) (now : Int) (n : JVal) :
    (validate_nonce sm now n).2.secret_key = sm.secret_key ∧
    (validate_nonce sm now n).2.replay_cache = sm.replay_cache ∧
    (validate_nonce sm now n).2.nonce_ttl = sm.nonce_ttl ∧
    (validate_nonce sm now n).2.replay_window = sm.replay_window := by
  unfold validate_nonce
  cases hf : n.falsy
  · rcases hg : alistGet sm.nonce_store n with _ | info
    · simp [hg]
    · by_cases hexp : sm.nonce_ttl < now - info.timestamp
      · simp [hg, hexp]
      · simp [hg, hexp]
  · simp

theorem detect_replay_true_of_cached (sm : SecurityManager) (now : Int) (m : JObj)
    (ts : Int) (sid : JVal)
    (hget : alistGet sm.replay_cache (replay_fingerprint m) = some (ts, sid))
    (hw : now - ts ≤ sm.replay_window) :
    (detect_replay_attack sm now m).1 = true := by
  have hfil : alistGet
      (sm.replay_cache.filter fun e => !decide (sm.replay_window < now - e.2.1))
      (replay_fingerprint m) = some (ts, sid) := by
    have := alistGet_filter_eq_some sm.replay_cache
      (fun x => !decide (sm.replay_window < now - x.1)) (replay_fingerprint m) (ts, sid)
      hget (by simp; omega)
    exact this
  unfold detect_replay_attack
  simp [hfil]

theorem detect_replay_false_of_uncached (sm : SecurityManager) (now : Int) (m : JObj)
    (hget : alistGet sm.replay_cache (replay_fingerprint m) = none) :
    (detect_replay_attack sm now m).1 = false := by
  have hfil : alistGet
      (sm.replay_cache.filter fun e => !decide (sm.replay_window < now - e.2.1))
      (replay_fingerprint m) = none := by
    have := alistGet_filter_eq_none sm.replay_cache
      (fun x => !decide (sm.replay_window < now - x.1)) (replay_fingerprint m) hget
    exact this
  unfold detect_replay_attack
  simp [hfil]

theorem detect_replay_false_cache (sm : SecurityManager) (now : Int) (m : JObj)
    (h : (detect_replay_attack sm now m).1 = false) :
    alistGet (detect_replay_attack sm now m).2.replay_cache (replay_fingerprint m) =
      some (now, m.getD "signal_id" (.jstr "unknown")) := by
  unfold detect_replay_attack at h ⊢
  rcases hg : alistGet
      (sm.replay_cache.filter fun e => !decide (sm.replay_window < now - e.2.1))
      (replay_fingerprint m) with _ | v
  · simp [hg, alistGet_set_self]
  · simp [hg] at h

theorem detect_replay_snd_fields (sm : SecurityManager) (now : Int) (m : JObj) :
    (detect_replay_attack sm now m).2.nonce_store = sm.nonce_store ∧
    (detect_replay_attack sm now m).2.secret_key = sm.secret_key ∧
    (detect_replay_attack sm now m).2.nonce_ttl = sm.nonce_ttl ∧
    (detect_replay_attack sm now m).2.replay_window = sm.replay_window := by
  unfold detect_replay_attack
  rcases hg : alistGet
      (sm.replay_cache.filter fun e => !decide (sm.replay_window < now - e.2.1))
      (replay_fingerprint m) with _ | v
  · simp [hg]
  · simp [hg]

theorem log_security_event_snd_fields (sm : SecurityManager) (now : Int)
    (et : String) (d : JObj) :
    (log_security_event sm now et d).2.nonce_store = sm.nonce_store ∧
    (log_security_event sm now et d).2.secret_key = sm.secret_key ∧
    (log_security_event sm now et d).2.replay_cache = sm.replay_cache ∧
    (log_security_event sm now et d).2.nonce_ttl = sm.nonce_ttl ∧
    (log_security_event sm now et d).2.replay_window = sm.replay_window := by
  exact ⟨rfl, rfl, rfl, rfl, rfl⟩

theorem validate_secure_of_missing (sm : SecurityManager) (now : Int) (sig : JObj)
    (h : missingFieldErrors sig ≠ []) :
    validate_secure_karma_signal sm now sig = ((false, missingFieldErrors sig), sm) := by
  unfold validate_secure_karma_signal
  simp [h]

theorem validate_secure_fst (sm : SecurityManager) (now : Int) (sig : JObj)
    (h : missingFieldErrors sig = []) :
    (validate_secure_karma_signal sm now sig).1 =
      ((secure_errors sm now sig).isEmpty, secure_errors sm now sig) := by
  unfold validate_secure_karma_signal
  simp [h]

theorem validate_secure_snd (sm : SecurityManager) (now : Int) (sig : JObj)
    (h : missingFieldErrors sig = []) :
    (validate_secure_karma_signal sm now sig).2 =
      (log_security_event
        (detect_replay_attack (validate_nonce sm now (sig.getD "nonce" .jnull)).2 now sig).2
        now "signal_validated"
        (validation_log_details sig (secure_errors sm now sig))).2 := by
  unfold validate_secure_karma_signal
  simp [h]

theorem validate_secure_missing_of_valid (sm : SecurityManager) (now : Int) (sig : JObj)
    (h : (validate_secure_karma_signal sm now sig).1.1 = true) :
    missingFieldErrors sig = [] := by
  by_cases hm : missingFieldErrors sig = []
  · exact hm
  · rw [validate_secure_of_missing sm now sig hm] at h
    simp at h

theorem secure_errors_nil_iff (sm : SecurityManager) (now : Int) (sig : JObj) :
    secure_errors sm now sig = [] ↔
      (validate_nonce sm now (sig.getD "nonce" .jnull)).1 = true ∧
      check_message_ttl now sig = true ∧
      (detect_replay_attack (validate_nonce sm now (sig.getD "nonce" .jnull)).2 now sig).1
        = false ∧
      signature_errors sm.secret_key sig = [] := by
  unfold secure_errors
  cases h1 : (validate_nonce sm now (sig.getD "nonce" .jnull)).1 <;>
    cases h2 : check_message_ttl now sig <;>
      cases h3 : (detect_replay_attack
          (validate_nonce sm now (sig.getD "nonce" .jnull)).2 now sig).1 <;>
        simp [h1, h2, h3]

/-! Claim theorems. -/

/-- Claim C2 (code bug): the claim states that after any `N ≥ 1` sequential
`log_security_event` appends the freshly initialized audit chain verifies,
but the code returns `false` on an untampered chain: `log_security_event`
links each entry to the hash of the previous entry computed WITHOUT its
`entry_hash` field, while `verify_audit_chain` recomputes the previous
entry's hash WITH that field (and the genesis entry carries a sentinel
string that is no hash at all), so the link comparison always fails.
Shown here for one and for two appends after initialization. -/
theorem audit_chain_rejects_untampered_log :
    verify_audit_chain (SecurityManager.mk0 "k" 0) = true ∧
    verify_audit_chain (log_security_event (SecurityManager.mk0 "k" 0) 0 "e" JObj.nil).2
      = false ∧
    verify_audit_chain
      (log_security_event
        (log_security_event (SecurityManager.mk0 "k" 0) 0 "e" JObj.nil).2 1 "f" JObj.nil).2
      = false := by
  decide

/-- Claim C3: `detect_replay_attack` is strictly reject-on-repeat: whenever
the message's fingerprint (hash of the canonical JSON of the message with
`timestamp`, `nonce` and `signature` removed) is in the replay cache and
not yet expired, the call reports a replay, regardless of the cached
timestamp or signal identifier; when the fingerprint is absent it caches
`(now, message identifier)` and reports no replay. -/
theorem detect_replay_attack_reject_on_repeat (sm : SecurityManager) (now : Int)
    (m : JObj) :
    (∀ ts sid, alistGet sm.replay_cache (replay_fingerprint m) = some (ts, sid) →
        now - ts ≤ sm.replay_window → (detect_replay_attack sm now m).1 = true)
    ∧ (alistGet sm.replay_cache (replay_fingerprint m) = none →
        (detect_replay_attack sm now m).1 = false ∧
        alistGet (detect_replay_attack sm now m).2.replay_cache (replay_fingerprint m) =
          some (now, m.getD "signal_id" (.jstr "unknown"))) :=
  ⟨fun ts sid h1 h2 => detect_replay_true_of_cached sm now m ts sid h1 h2,
   fun h => ⟨detect_replay_false_of_uncached sm now m h,
             detect_replay_false_cache sm now m (detect_replay_false_of_uncached sm now m h)⟩⟩

/-- Witness for C3: on a fresh manager the first detection caches the
fingerprint and reports no replay, and an immediate second detection of
the same payload reports a replay. -/
theorem detect_replay_attack_reject_on_repeat_witness :
    ((detect_replay_attack base_sm 0 replay_msg).1 = false ∧
      alistGet (detect_replay_attack base_sm 0 replay_msg).2.replay_cache
        (replay_fingerprint replay_msg) = some (0, .jstr "s1"))
    ∧ (detect_replay_attack (detect_replay_attack base_sm 0 replay_msg).2 0 replay_msg).1
        = true := by
  have h2 := (detect_replay_attack_reject_on_repeat base_sm 0 replay_msg).2 (by decide)
  refine ⟨⟨h2.1, ?_⟩, ?_⟩
  · rw [h2.2]
    decide
  · exact (detect_replay_attack_reject_on_repeat
      (detect_replay_attack base_sm 0 replay_msg).2 0 replay_msg).1 0 (.jstr "s1")
      (by decide) (by decide)

/-- Claim C4: `is_valid_ttl` returns `true` exactly when the timestamp
parses (with a trailing literal `Z` accepted as UTC) and the age
`now - parsed` lies in `[0, ttl_seconds]`; unparseable timestamps yield
`false`, future timestamps are invalid and an age of exactly
`ttl_seconds` is valid. -/
theorem is_valid_ttl_iff_parse_and_window (now : Int) (s : String) (ttl : Int) :
    is_valid_ttl now s ttl = true ↔
      ∃ t, parses_as_rfc3339 s = some t ∧ 0 ≤ now - t ∧ now - t ≤ ttl := by
  by_cases hz : strEndsWith s "Z"
  · rcases h : fromisoformat (strDropRight s 1 ++ "+00:00") with _ | t
    · simp [is_valid_ttl, parses_as_rfc3339, hz, h]
    · simp [is_valid_ttl, parses_as_rfc3339, hz, h]
  · rcases h : fromisoformat s with _ | t
    · simp [is_valid_ttl, parses_as_rfc3339, hz, h]
    · simp [is_valid_ttl, parses_as_rfc3339, hz, h]

/-- Claim C5: `validate_nonce` rejects falsy and unknown nonces; a known
nonce older than the configured nonce TTL is evicted and rejected; a known
fresh nonce validates `true` with the state unchanged — the nonce is not
consumed, so an immediate repeated validation also returns `true`.  The
constructor configures the nonce TTL to 300 seconds. -/
theorem validate_nonce_no_consumption (sm : SecurityManager) (now : Int) (n : JVal) :
    (n.falsy = true → validate_nonce sm now n = (false, sm))
    ∧ (alistGet sm.nonce_store n = none → validate_nonce sm now n = (false, sm))
    ∧ (∀ info, alistGet sm.nonce_store n = some info → n.falsy = false →
        (sm.nonce_ttl < now - info.timestamp →
          (validate_nonce sm now n).1 = false ∧
          alistGet (validate_nonce sm now n).2.nonce_store n = none)
        ∧ (now - info.timestamp ≤ sm.nonce_ttl →
          validate_nonce sm now n = (true, sm) ∧
          (validate_nonce (validate_nonce sm now n).2 now n).1 = true))
    ∧ (∀ s t, (SecurityManager.mk0 s t).nonce_ttl = 300) := by
  refine ⟨?_, ?_, ?_, fun s t => rfl⟩
  · intro hf
    unfold validate_nonce
    simp [hf]
  · intro hg
    unfold validate_nonce
    cases hf : n.falsy
    · simp [hg]
    · simp
  · intro info hg hf
    constructor
    · intro hexp
      unfold validate_nonce
      simp [hf, hg, hexp, alistGet_erase_self]
    · intro hfresh
      have h1 : validate_nonce sm now n = (true, sm) := by
        unfold validate_nonce
        simp [hf, hg]
        omega
      exact ⟨h1, by simp [h1]⟩

/-- Witness for C5: a nonce issued at time 0 validates `true` at time 0
with the store unchanged, and validates `true` again on an immediately
repeated call. -/
theorem validate_nonce_no_consumption_witness :
    validate_nonce issued.2 0 issued.1 = (true, issued.2) ∧
    (validate_nonce (validate_nonce issued.2 0 issued.1).2 0 issued.1).1 = true :=
  ((validate_nonce_no_consumption issued.2 0 issued.1).2.2.1
    { timestamp := 0, created_at := isoformat 0 } (by decide) (by decide)).2 (by decide)

/-- Claim C7: signing then verifying the same message succeeds, and
verifying a message whose value at any field differs from the signed one
(changed, added or removed) against the original signature fails. -/
theorem signature_tamper_evidence (key : String) (m m2 : JObj) (k : String)
    (hdiff : m2.get k ≠ m.get k) :
    verify_signature key m (sign_message key m) = true ∧
    verify_signature key m2 (sign_message key m) = false := by
  constructor
  · simp [verify_signature]
  · unfold verify_signature
    have hne : ¬ sign_message key m2 = sign_message key m := by
      intro he
      unfold sign_message canonicalJson at he
      have hobj : m2.sortKeys = m.sortKeys := by
        injection he with h1 h2
        injection h2
      exact hdiff (by rw [← JObj.get_sortKeys m2 k, ← JObj.get_sortKeys m k, hobj])
    exact decide_eq_false hne

/-- Witness for C7: a concrete one-field message verifies against its own
signature, and changing the field's value makes verification fail. -/
theorem signature_tamper_evidence_witness :
    verify_signature "k" tamper_msg_a (sign_message "k" tamper_msg_a) = true ∧
    verify_signature "k" tamper_msg_b (sign_message "k" tamper_msg_a) = false :=
  signature_tamper_evidence "k" tamper_msg_a tamper_msg_b "a" (by decide)

/-- Claim C8: when a stored message fails re-validation,
`receive_from_bucket` returns not-found and leaves the bucket store
untouched: the handle still maps to the same secured message. -/
theorem failed_retrieval_preserves_store (bc : BucketCommunicator) (now : Int)
    (handle : String) (m : JObj)
    (hstore : alistGet bc.bucket_store handle = some m)
    (hinv : (validate_secure_karma_signal bc.sm now m).1.1 = false) :
    (receive_from_bucket bc now handle).1 = none
    ∧ (receive_from_bucket bc now handle).2.bucket_store = bc.bucket_store
    ∧ alistGet (receive_from_bucket bc now handle).2.bucket_store handle = some m := by
  refine ⟨?_, ?_, ?_⟩ <;> simp [receive_from_bucket, hstore, hinv]

/-- Witness for C8: retrieving a stored message with every security field
missing yields not-found and the store still holds it. -/
theorem failed_retrieval_preserves_store_witness :
    (receive_from_bucket stored_invalid_bc 0 "bucket_1").1 = none
    ∧ (receive_from_bucket stored_invalid_bc 0 "bucket_1").2.bucket_store =
        stored_invalid_bc.bucket_store
    ∧ alistGet (receive_from_bucket stored_invalid_bc 0 "bucket_1").2.bucket_store
        "bucket_1" = some JObj.nil :=
  failed_retrieval_preserves_store stored_invalid_bc 0 "bucket_1" JObj.nil
    (by decide) (by decide)

/-- Claim C1 (code bug): the claim states that after a successful
submission the FIRST retrieval of the returned handle succeeds, but the
code's submit-time self-validation already inserts the payload fingerprint
into the replay cache, so the retrieval-time re-validation of the stored
message flags a replay and the very first `receive_from_bucket` on the
fresh handle returns not-found (while the message stays in the store). -/
theorem submit_succeeds_but_first_retrieval_not_found :
    (send_to_bucket base_bc 0 "r" roundtrip_msg).1.success = true ∧
    (send_to_bucket base_bc 0 "r" roundtrip_msg).1.bucket_id = some "bucket_1" ∧
    (receive_from_bucket (send_to_bucket base_bc 0 "r" roundtrip_msg).2 0 "bucket_1").1
      = none ∧
    (alistGet (receive_from_bucket (send_to_bucket base_bc 0 "r" roundtrip_msg).2 0
        "bucket_1").2.bucket_store "bucket_1").isSome = true := by
  decide

/-- Claim C6: `validate_secure_karma_signal` short-circuits on missing
security fields, returning exactly the field-missing errors with the state
untouched; with all fields present it accumulates the nonce, TTL, replay
and signature errors without short-circuiting, and the valid flag is true
exactly when the error list is empty. -/
theorem validate_secure_error_accumulation (sm : SecurityManager) (now : Int)
    (sig : JObj) :
    (missingFieldErrors sig ≠ [] →
      validate_secure_karma_signal sm now sig = ((false, missingFieldErrors sig), sm))
    ∧ (missingFieldErrors sig = [] →
      (validate_secure_karma_signal sm now sig).1.2 = secure_errors sm now sig
      ∧ ((validate_secure_karma_signal sm now sig).1.1 = true ↔
         (validate_secure_karma_signal sm now sig).1.2 = [])) := by
  constructor
  · exact validate_secure_of_missing sm now sig
  · intro h
    have hf := validate_secure_fst sm now sig h
    constructor
    · rw [hf]
    · rw [hf]
      simp [List.isEmpty_iff]

/-- Witness for C6: a message carrying all five security fields but an
unknown nonce, an unparseable timestamp and a forged signature accumulates
all three corresponding errors in one call. -/
theorem validate_secure_error_accumulation_witness :
    (validate_secure_karma_signal base_sm 0 bad_sig).1.2 =
      ["Invalid or expired nonce", "Message expired (TTL violation)", "Invalid signature"]
    ∧ ((validate_secure_karma_signal base_sm 0 bad_sig).1.1 = true ↔
       (validate_secure_karma_signal base_sm 0 bad_sig).1.2 = []) := by
  have h := (validate_secure_error_accumulation base_sm 0 bad_sig).2 (by decide)
  refine ⟨?_, h.2⟩
  rw [h.1]
  decide

/-- Claim C9 counterexample: `create_secure_karma_signal` does NOT keep
every input field's original value: a payload that already carries a
`nonce` field has it overwritten by the freshly generated nonce. -/
theorem create_secure_overwrites_caller_nonce :
    nonce_payload.get "nonce" = some (.jstr "x") ∧
    (create_secure_karma_signal base_sm 0 "r" nonce_payload 300).1.get "nonce" =
      some (nonce_value 0 "r") ∧
    (create_secure_karma_signal base_sm 0 "r" nonce_payload 300).1.get "nonce" ≠
      nonce_payload.get "nonce" := by
  decide

/-- Claim C9 as amended: `create_secure_karma_signal` always succeeds and
preserves every input field other than the five security fields; a
caller-supplied timestamp is kept and a fresh one attached only when the
input carries none; the `nonce`, `ttl`, `security_version` and `signature`
fields are always set, overwriting caller-supplied values; and no
validation is performed (the replay cache is untouched). -/
theorem create_secure_preserves_non_security_fields (sm : SecurityManager) (now : Int)
    (rand : String) (d : JObj) (ttl : Int) :
    (∀ k, ¬ k ∈ security_field_names →
        (create_secure_karma_signal sm now rand d ttl).1.get k = d.get k)
    ∧ (d.hasKey "timestamp" = true →
        (create_secure_karma_signal sm now rand d ttl).1.get "timestamp" =
          d.get "timestamp")
    ∧ (d.hasKey "timestamp" = false →
        (create_secure_karma_signal sm now rand d ttl).1.get "timestamp" =
          some (.jstr (isoformat now)))
    ∧ (create_secure_karma_signal sm now rand d ttl).1.get "ttl" = some (.jint ttl)
    ∧ (create_secure_karma_signal sm now rand d ttl).1.get "security_version" =
        some (.jstr "2.0")
    ∧ (create_secure_karma_signal sm now rand d ttl).2.replay_cache = sm.replay_cache := by
  obtain ⟨sigv, hfst⟩ : ∃ sigv, (create_secure_karma_signal sm now rand d ttl).1 =
      (((if (d.set "nonce" (nonce_value now rand)).hasKey "timestamp"
          then d.set "nonce" (nonce_value now rand)
          else (d.set "nonce" (nonce_value now rand)).set "timestamp"
            (.jstr (isoformat now))).set "ttl" (.jint ttl)).set "security_version"
        (.jstr "2.0")).set "signature" sigv := ⟨_, rfl⟩
  have hts_eq : (d.set "nonce" (nonce_value now rand)).hasKey "timestamp" =
      d.hasKey "timestamp" :=
    JObj.hasKey_set_ne d "nonce" (nonce_value now rand) "timestamp" (by decide)
  refine ⟨?_, ?_, ?_, ?_, ?_, rfl⟩
  · intro k hk
    simp only [security_field_names, List.mem_cons, List.not_mem_nil, or_false] at hk
    push_neg at hk
    obtain ⟨h1, h2, h3, h4, h5⟩ := hk
    rw [hfst, JObj.get_set_ne _ _ _ _ h5, JObj.get_set_ne _ _ _ _ h4,
      JObj.get_set_ne _ _ _ _ h3]
    by_cases hts : (d.set "nonce" (nonce_value now rand)).hasKey "timestamp"
    · rw [if_pos hts, JObj.get_set_ne _ _ _ _ h1]
    · rw [if_neg hts, JObj.get_set_ne _ _ _ _ h2, JObj.get_set_ne _ _ _ _ h1]
  · intro ht
    rw [hfst, JObj.get_set_ne _ _ _ _ (by decide : ("timestamp" : String) ≠ "signature"),
      JObj.get_set_ne _ _ _ _ (by decide : ("timestamp" : String) ≠ "security_version"),
      JObj.get_set_ne _ _ _ _ (by decide : ("timestamp" : String) ≠ "ttl"),
      if_pos (hts_eq.trans ht), JObj.get_set_ne _ _ _ _
        (by decide : ("timestamp" : String) ≠ "nonce")]
  · intro ht
    rw [hfst, JObj.get_set_ne _ _ _ _ (by decide : ("timestamp" : String) ≠ "signature"),
      JObj.get_set_ne _ _ _ _ (by decide : ("timestamp" : String) ≠ "security_version"),
      JObj.get_set_ne _ _ _ _ (by decide : ("timestamp" : String) ≠ "ttl"),
      if_neg (by rw [hts_eq, ht]; exact Bool.false_ne_true), JObj.get_set_self]
  · rw [hfst, JObj.get_set_ne _ _ _ _ (by decide : ("ttl" : String) ≠ "signature"),
      JObj.get_set_ne _ _ _ _ (by decide : ("ttl" : String) ≠ "security_version"),
      JObj.get_set_self]
  · rw [hfst, JObj.get_set_ne _ _ _ _
      (by decide : ("security_version" : String) ≠ "signature"), JObj.get_set_self]

/-- Witness for the amended C9: a non-security field survives securing
unchanged, and a payload without a timestamp gets the fresh one. -/
theorem create_secure_preserves_non_security_fields_witness :
    (create_secure_karma_signal base_sm 0 "r" plain_payload 300).1.get "foo" =
      plain_payload.get "foo"
    ∧ (create_secure_karma_signal base_sm 0 "r" plain_payload 300).1.get "timestamp" =
      some (.jstr (isoformat 0)) :=
  ⟨(create_secure_preserves_non_security_fields base_sm 0 "r" plain_payload 300).1
      "foo" (by decide),
   (create_secure_preserves_non_security_fields base_sm 0 "r" plain_payload 300).2.2.1
      (by decide)⟩

/-- Claim C10: validation is stateful, not idempotent: whenever a
validation call returns valid on a message, an immediately repeated call
on the exact same message in the resulting state returns invalid with a
replay error, because the first call inserted the message's fingerprint
into the replay cache. -/
theorem validate_secure_not_idempotent (sm : SecurityManager) (now : Int) (sig : JObj)
    (hw : 0 ≤ sm.replay_window)
    (h1 : (validate_secure_karma_signal sm now sig).1.1 = true) :
    (validate_secure_karma_signal (validate_secure_karma_signal sm now sig).2 now sig).1.1
      = false
    ∧ "Replay attack detected" ∈
        (validate_secure_karma_signal (validate_secure_karma_signal sm now sig).2 now
          sig).1.2 := by
  have hm := validate_secure_missing_of_valid sm now sig h1
  have hf := validate_secure_fst sm now sig hm
  have herr : secure_errors sm now sig = [] := by
    rw [hf] at h1
    simpa [List.isEmpty_iff] using h1
  obtain ⟨hn, ht, hd, hs⟩ := (secure_errors_nil_iff sm now sig).1 herr
  have hvn := validate_nonce_eq_of_true sm now (sig.getD "nonce" .jnull) hn
  rw [hvn] at hd
  dsimp only at hd
  have hcache := detect_replay_false_cache sm now sig hd
  have hsnd := validate_secure_snd sm now sig hm
  rw [hvn] at hsnd
  dsimp only at hsnd
  obtain ⟨lns, lsk, lrc, lnt, lrw⟩ := log_security_event_snd_fields
    (detect_replay_attack sm now sig).2 now "signal_validated"
    (validation_log_details sig (secure_errors sm now sig))
  obtain ⟨dns, dsk, dnt, drw⟩ := detect_replay_snd_fields sm now sig
  have e_ns : (validate_secure_karma_signal sm now sig).2.nonce_store = sm.nonce_store := by
    rw [hsnd]
    exact lns.trans dns
  have e_sk : (validate_secure_karma_signal sm now sig).2.secret_key = sm.secret_key := by
    rw [hsnd]
    exact lsk.trans dsk
  have e_nt : (validate_secure_karma_signal sm now sig).2.nonce_ttl = sm.nonce_ttl := by
    rw [hsnd]
    exact lnt.trans dnt
  have e_rw : (validate_secure_karma_signal sm now sig).2.replay_window =
      sm.replay_window := by
    rw [hsnd]
    exact lrw.trans drw
  have e_rc : (validate_secure_karma_signal sm now sig).2.replay_cache =
      (detect_replay_attack sm now sig).2.replay_cache := by
    rw [hsnd]
    exact lrc
  have hn2 : (validate_nonce (validate_secure_karma_signal sm now sig).2 now
      (sig.getD "nonce" .jnull)).1 = true := by
    rw [validate_nonce_true_iff]
    obtain ⟨hfal, info, hgi, hle⟩ := (validate_nonce_true_iff sm now
      (sig.getD "nonce" .jnull)).1 hn
    refine ⟨hfal, info, ?_, ?_⟩
    · rw [e_ns]
      exact hgi
    · rw [e_nt]
      exact hle
  have hvn2 := validate_nonce_eq_of_true (validate_secure_karma_signal sm now sig).2 now
    (sig.getD "nonce" .jnull) hn2
  have hd2 : (detect_replay_attack (validate_secure_karma_signal sm now sig).2 now
      sig).1 = true := by
    apply detect_replay_true_of_cached _ now sig now (sig.getD "signal_id" (.jstr "unknown"))
    · rw [e_rc]
      exact hcache
    · rw [e_rw]
      omega
  have hs2 : signature_errors (validate_secure_karma_signal sm now sig).2.secret_key sig
      = [] := by
    rw [e_sk]
    exact hs
  have herr2 : secure_errors (validate_secure_karma_signal sm now sig).2 now sig =
      ["Replay attack detected"] := by
    unfold secure_errors
    rw [hvn2]
    dsimp only
    rw [hs2, ht, hd2]
    simp
  have hf2 := validate_secure_fst (validate_secure_karma_signal sm now sig).2 now sig hm
  rw [hf2]
  dsimp only
  rw [herr2]
  exact ⟨rfl, by simp⟩

/-- Witness for C10: a freshly secured signal validates once, and the
immediately repeated validation of the same message is invalid with the
replay error reported. -/
theorem validate_secure_not_idempotent_witness :
    (validate_secure_karma_signal
        (validate_secure_karma_signal fresh_secured.2 0 fresh_secured.1).2 0
        fresh_secured.1).1.1 = false
    ∧ "Replay attack detected" ∈ (validate_secure_karma_signal
        (validate_secure_karma_signal fresh_secured.2 0 fresh_secured.1).2 0
        fresh_secured.1).1.2 :=
  validate_secure_not_idempotent fresh_secured.2 0 fresh_secured.1 (by decide) (by decide)

/-- Witness for C4: a message aged exactly `ttl_seconds` is valid and one
second beyond is invalid. -/
theorem is_valid_ttl_iff_parse_and_window_witness :
    is_valid_ttl 300 "0+00:00" 300 = true ∧ is_valid_ttl 301 "0+00:00" 300 = false := by
  constructor
  · exact (is_valid_ttl_iff_parse_and_window 300 "0+00:00" 300).2
      ⟨0, by decide, by decide, by decide⟩
  · cases hb : is_valid_ttl 301 "0+00:00" 300
    · rfl
    · obtain ⟨t, hp, h0, hle⟩ := (is_valid_ttl_iff_parse_and_window 301 "0+00:00" 300).1 hb
      have ht : t = 0 := by
        have : parses_as_rfc3339 "0+00:00" = some 0 := by decide
        rw [this] at hp
        exact (Option.some.injEq _ _ ▸ hp).symm
      omega

end KarmaChain
